import Mathlib

/-!
Shallow embedding of the FIIs tracker core (`src/fiis_tracker`): the data
model (`models.py`), month utilities and tracker operations (`tracker.py`)
and the storage behavior (`storage.py`).  Python floats are modelled as
rationals; Python `round(x, n)` is modelled as round-half-to-even at `n`
decimal places, and Python's in-place list mutation as explicit state
passing on a `List FII` portfolio state.
-/

namespace FIIsTracker

/-- Floor of a rational, computed as floor division of numerator by
denominator (the denominator of a `ℚ` is positive). -/
def qfloor (q : ℚ) : ℤ :=
  Int.fdiv q.num q.den

/-- Round-half-to-even to the nearest integer, as Python's builtin `round`
does on exact halves. -/
def roundHalfEven (q : ℚ) : ℤ :=
  let f : ℤ := qfloor q
  let frac : ℚ := q - (f : ℚ)
  if frac < 1/2 then f
  else if 1/2 < frac then f + 1
  else if f % 2 = 0 then f else f + 1

/-- Python `round(x, 2)`. -/
def round2 (q : ℚ) : ℚ :=
  (roundHalfEven (q * 100) : ℚ) / 100

/-- Python `round(x, 4)`. -/
def round4 (q : ℚ) : ℚ :=
  (roundHalfEven (q * 10000) : ℚ) / 10000

/-- Model of `statistics.mean` on a list of rationals (callers guard the empty case). -/
def listMean (l : List ℚ) : ℚ :=
  l.sum / (l.length : ℚ)

/-- Stable insertion of `a` into a `le`-sorted list: `a` is placed before
the first element `b` with `le a b`, hence before later equal elements. -/
def insertLe {α : Type} (le : α → α → Bool) (a : α) : List α → List α
  | [] => [a]
  | b :: l => if le a b then a :: b :: l else b :: insertLe le a l

/-- Stable insertion sort; extensionally equal to Python's stable
`list.sort(key=...)` for a total transitive `le`. -/
def sortLe {α : Type} (le : α → α → Bool) : List α → List α
  | [] => []
  | a :: l => insertLe le a (sortLe le l)

/-- Lexicographic comparison of character lists by code point, as Python
compares strings. -/
def charListLe : List Char → List Char → Bool
  | [], _ => true
  | _ :: _, [] => false
  | a :: as, b :: bs => if a < b then true else if b < a then false else charListLe as bs

/-- Python `s1 <= s2` on strings. -/
def strLe (a b : String) : Bool :=
  charListLe a.data b.data

/-- Model of `models.MonthlyRecord`: one month's purchase/dividend observation. -/
structure MonthlyRecord where
  month : String
  cotas_added : ℚ
  price_per_cota : ℚ
  dividend_per_cota : ℚ
  dividend_total : Option ℚ
  notes : String
deriving DecidableEq, Repr

/-- Model of `models.FII`: a fund with its monthly entries. -/
structure FII where
  ticker : String
  name : String
  sector : String
  entries : List MonthlyRecord
deriving DecidableEq, Repr

/-- Sort key used throughout the source: `key=lambda record: record.month`. -/
def recordLe (a b : MonthlyRecord) : Bool :=
  strLe a.month b.month

/-- Python `entries.sort(key=lambda record: record.month)` (stable). -/
def sortByMonth (l : List MonthlyRecord) : List MonthlyRecord :=
  sortLe recordLe l

/-- Sort key `key=lambda fii: fii.ticker`. -/
def fiiLe (a b : FII) : Bool :=
  strLe a.ticker b.ticker

/-- Python `fiis.sort(key=lambda fii: fii.ticker)` (stable). -/
def sortByTicker (l : List FII) : List FII :=
  sortLe fiiLe l

/-- Model of `FII.total_cotas`: sum of `cotas_added` over the entries. -/
def FII.total_cotas (f : FII) : ℚ :=
  (f.entries.map (fun e => e.cotas_added)).sum

/-- Model of `FII.total_invested`: sum of `cotas_added * price_per_cota`. -/
def FII.total_invested (f : FII) : ℚ :=
  (f.entries.map (fun e => e.cotas_added * e.price_per_cota)).sum

/-- Model of `FII.average_price`: `total_invested / cotas if cotas else 0.0`
(`0.0` is the only falsy float here). -/
def FII.average_price (f : FII) : ℚ :=
  let cotas := f.total_cotas
  if cotas = 0 then 0 else f.total_invested / cotas

/-- Python truthiness of the `Optional[int]` argument `window`:
`None` and `0` are falsy. -/
def optTruthy : Option ℤ → Bool
  | none => false
  | some x => x != 0

/-- Python slice `l[k:]` for an integer `k` (negative `k` keeps the last
`-k` elements). -/
def pySliceFrom {α : Type} (l : List α) (k : ℤ) : List α :=
  if k < 0 then l.drop (l.length - min l.length (-k).toNat) else l.drop k.toNat

/-- Model of `FII.average_dividend_per_cota`: mean of the strictly positive
`dividend_per_cota` values, restricted to `dividends[-window:]` when
`window` is truthy; `0` when no value qualifies. -/
def FII.average_dividend_per_cota (f : FII) (window : Option ℤ) : ℚ :=
  let dividends :=
    (f.entries.filter (fun e => decide (0 < e.dividend_per_cota))).map
      (fun e => e.dividend_per_cota)
  if dividends.isEmpty then 0
  else
    let dividends :=
      if optTruthy window then pySliceFrom dividends (-(window.getD 0)) else dividends
    listMean dividends

/-- Model of `FII.last_record`: `sorted(entries, key=month)[-1]`, `None` when empty. -/
def FII.last_record (f : FII) : Option MonthlyRecord :=
  (sortByMonth f.entries).getLast?

/-- Model of `FII.total_dividends_received`: prefer the explicit `dividend_total`,
else derive `dividend_per_cota * cotas_added` when both are truthy. -/
def FII.total_dividends_received (f : FII) : ℚ :=
  f.entries.foldl
    (fun total e =>
      match e.dividend_total with
      | some d => total + d
      | none =>
          if e.dividend_per_cota ≠ 0 ∧ e.cotas_added ≠ 0 then
            total + e.dividend_per_cota * e.cotas_added
          else total)
    0

/-- Numeric value of a decimal digit character. -/
def digitVal (c : Char) : ℕ :=
  c.toNat - 48

/-- CPython strptime `%d` followed by end of input: regex alternatives
`3[01]`, `[12]\d`, `0[1-9]`, `[1-9]` tried in order, with backtracking. -/
def matchDayEnd (cs : List Char) : Option ℕ :=
  (match cs with
   | ['3', c] => if c = '0' ∨ c = '1' then some (30 + digitVal c) else none
   | _ => none) <|>
  (match cs with
   | [a, b] =>
     if (a = '1' ∨ a = '2') ∧ b.isDigit then some (digitVal a * 10 + digitVal b) else none
   | _ => none) <|>
  (match cs with
   | ['0', b] => if '1' ≤ b ∧ b ≤ '9' then some (digitVal b) else none
   | _ => none) <|>
  (match cs with
   | [a] => if '1' ≤ a ∧ a ≤ '9' then some (digitVal a) else none
   | _ => none)

/-- CPython strptime `%m` (alternatives `1[0-2]`, `0[1-9]`, `[1-9]` in
order), then a literal `-`, then `%d`, then end of input. -/
def matchMonthDayEnd (cs : List Char) : Option (ℕ × ℕ) :=
  (match cs with
   | a :: b :: '-' :: rest =>
     if (a = '1' ∧ (b = '0' ∨ b = '1' ∨ b = '2')) ∨ (a = '0' ∧ '1' ≤ b ∧ b ≤ '9') then
       (matchDayEnd rest).map (fun d => (digitVal a * 10 + digitVal b, d))
     else none
   | _ => none) <|>
  (match cs with
   | a :: '-' :: rest =>
     if '1' ≤ a ∧ a ≤ '9' then (matchDayEnd rest).map (fun d => (digitVal a, d))
     else none
   | _ => none)

/-- CPython strptime `%Y` (exactly four digits), a literal `-`, then
month, `-`, day, end of input. -/
def matchYMDEnd (cs : List Char) : Option (ℕ × ℕ × ℕ) :=
  match cs with
  | y1 :: y2 :: y3 :: y4 :: '-' :: rest =>
    if y1.isDigit ∧ y2.isDigit ∧ y3.isDigit ∧ y4.isDigit then
      (matchMonthDayEnd rest).map
        (fun md =>
          (digitVal y1 * 1000 + digitVal y2 * 100 + digitVal y3 * 10 + digitVal y4,
            md.1, md.2))
    else none
  | _ => none

def isLeapYear (y : ℕ) : Bool :=
  if y % 4 = 0 ∧ (y % 100 ≠ 0 ∨ y % 400 = 0) then true else false

def daysInMonth (y m : ℕ) : ℕ :=
  if m = 2 then (if isLeapYear y then 29 else 28)
  else if m = 4 ∨ m = 6 ∨ m = 9 ∨ m = 11 then 30
  else 31

/-- Model of `datetime.strptime(s, "%Y-%m-%d")` together with the `datetime`
constructor's range validation (`MINYEAR = 1 ≤ year ≤ 9999 = MAXYEAR`,
day within the month; the month bounds are re-checked although the regex
already guarantees them). -/
def strptimeYMD (s : String) : Option (ℕ × ℕ × ℕ) :=
  match matchYMDEnd s.data with
  | none => none
  | some (y, m, d) =>
    if 1 ≤ y ∧ y ≤ 9999 ∧ 1 ≤ m ∧ m ≤ 12 ∧ 1 ≤ d ∧ d ≤ daysInMonth y m then
      some (y, m, d)
    else none

/-- Left-pad with zeros to width `w`. -/
def padZeros (s : String) (w : ℕ) : String :=
  String.mk (List.replicate (w - s.length) '0') ++ s

/-- Model of `strftime("%Y")` / `f"{n:04d}"` on a year, zero-padded to four digits
as the Python documentation specifies for `%Y`. -/
def pad4 (n : ℕ) : String :=
  padZeros (toString n) 4

/-- Model of `strftime("%m")` / `f"{n:02d}"`: zero-padded two-digit rendering. -/
def pad2 (n : ℕ) : String :=
  padZeros (toString n) 2

/-- Python `f"{n:04d}"` for a possibly negative integer (the sign counts
toward the width). -/
def pad4Int (n : ℤ) : String :=
  if n < 0 then "-" ++ padZeros (toString (-n).toNat) 3 else padZeros (toString n.toNat) 4

/-- The `sanitized` local of `tracker.normalize_month`: strip, `/` → `-`,
auto-insert a separator in a bare six-digit string. -/
def sanitizeMonth (value : String) : String :=
  let sanitized := (value.trim).replace "/" "-"
  if sanitized.length = 6 ∧ sanitized.data.all Char.isDigit then
    String.mk (sanitized.data.take 4) ++ "-" ++ String.mk (sanitized.data.drop 4)
  else sanitized

/-- Model of `tracker.normalize_month`: sanitize, parse with strptime,
reformat canonically. -/
def normalize_month (value : String) : Except String String :=
  match strptimeYMD (sanitizeMonth value ++ "-01") with
  | none => Except.error "Informe o mes no formato AAAA-MM"
  | some (y, m, _) => Except.ok (pad4 y ++ "-" ++ pad2 m)

/-- Model of `tracker.month_after`: integer month arithmetic with Python's floor
division and modulo.  On an unparseable reference — where Python's
`strptime` would raise — it returns `""`; no claim exercises that path. -/
def month_after (reference : String) (offset : ℤ) : String :=
  match strptimeYMD (reference ++ "-01") with
  | none => ""
  | some (y, m, _) =>
    let total : ℤ := (y : ℤ) * 12 + (m : ℤ) - 1 + offset
    let new_year := Int.fdiv total 12
    let new_month := Int.emod total 12 + 1
    pad4Int new_year ++ "-" ++ padZeros (toString new_month.toNat) 2

/-- Outcome of a mutating tracker method: the returned-or-raised value,
the in-memory portfolio afterwards, and whether `self._save()` ran. -/
structure TrackerResult (α : Type) where
  outcome : Except String α
  fiis : List FII
  saved : Bool
deriving Repr

/-- Model of `FIIsTracker.find_fii`: first fund whose ticker equals the uppercased
argument. -/
def find_fii (fiis : List FII) (ticker : String) : Option FII :=
  fiis.find? (fun f => f.ticker == ticker.toUpper)

/-- Replace the first fund whose ticker is `t` — the object `find_fii`
returned and the Python methods mutate in place. -/
def updateFirst (fiis : List FII) (t : String) (g : FII → FII) : List FII :=
  match fiis with
  | [] => []
  | f :: rest => if f.ticker = t then g f :: rest else f :: updateFirst rest t g

/-- Model of `FIIsTracker.register_month`: derive `dividend_total` on the
post-purchase cota count when absent and `dividend_per_cota` is truthy,
append the record, re-sort by month, save. -/
def register_month (fiis : List FII) (ticker : String) (record : MonthlyRecord) :
    TrackerResult MonthlyRecord :=
  match find_fii fiis ticker with
  | none => ⟨Except.error ("FII " ++ ticker.toUpper ++ " nao encontrado."), fiis, false⟩
  | some fii =>
    let total_cotas_before := fii.total_cotas
    let total_cotas_after := total_cotas_before + record.cotas_added
    let record :=
      if record.dividend_total = none ∧ record.dividend_per_cota ≠ 0 then
        { record with
          dividend_total := some (round2 (record.dividend_per_cota * total_cotas_after)) }
      else record
    ⟨Except.ok record,
      updateFirst fiis fii.ticker
        (fun f => { f with entries := sortByMonth (f.entries ++ [record]) }),
      true⟩

/-- The `for ... if entry.month == original_month: entries[idx] = updated;
break` loop: first-match replacement, `none` for the loop's `else:` branch
(no entry touched). -/
def replaceMonth (entries : List MonthlyRecord) (orig : String)
    (updated : MonthlyRecord) : Option (List MonthlyRecord) :=
  match entries with
  | [] => none
  | e :: rest =>
    if e.month = orig then some (updated :: rest)
    else (replaceMonth rest orig updated).map (fun l => e :: l)

/-- Model of `FIIsTracker.update_month_record`. -/
def update_month_record (fiis : List FII) (ticker original_month : String)
    (updated : MonthlyRecord) : TrackerResult MonthlyRecord :=
  match find_fii fiis ticker with
  | none => ⟨Except.error ("FII " ++ ticker.toUpper ++ " nao encontrado."), fiis, false⟩
  | some fii =>
    match replaceMonth fii.entries original_month updated with
    | none =>
      ⟨Except.error
          ("Mes " ++ original_month ++ " nao encontrado para " ++ ticker.toUpper ++ "."),
        fiis, false⟩
    | some newEntries =>
      ⟨Except.ok updated,
        updateFirst fiis fii.ticker (fun f => { f with entries := sortByMonth newEntries }),
        true⟩

/-- Model of `tracker.ProjectionPoint`. -/
structure ProjectionPoint where
  month : String
  projected_cotas : ℚ
  projected_income : ℚ
  cumulative_income : ℚ
  reinvested_cotas : ℚ
  combined_cotas : ℚ
  combined_income : ℚ
deriving DecidableEq, Repr

/-- Loop state of `project_income`. -/
structure IncomeState where
  cotas : ℚ
  cumulative : ℚ
  cash_remainder : ℚ
  reinvested_total : ℚ
deriving DecidableEq, Repr

/-- Model of `avg_price` after the guard `if avg_price <= 0: avg_price = 1.0`. -/
def effectiveAvgPrice (f : FII) : ℚ :=
  let p := f.average_price
  if p ≤ 0 then 1 else p

/-- One iteration of the `project_income` loop body. -/
def incomeStep (avg_dividend avg_price monthly_cotas : ℚ) (last_month : String)
    (offset : ℕ) (st : IncomeState) : IncomeState × ProjectionPoint :=
  let cotas_before_reinvest := st.cotas + monthly_cotas
  let projected_income := round2 (cotas_before_reinvest * avg_dividend)
  let cumulative := round2 (st.cumulative + projected_income)
  let cash0 := round2 (st.cash_remainder + projected_income)
  let res :=
    if avg_price ≠ 0 then
      let purchasable := qfloor (cash0 / avg_price)
      if purchasable ≠ 0 then
        (cotas_before_reinvest + (purchasable : ℚ),
          round2 (cash0 - (purchasable : ℚ) * avg_price),
          round4 (st.reinvested_total + (purchasable : ℚ)))
      else (cotas_before_reinvest, cash0, st.reinvested_total)
    else (cotas_before_reinvest, cash0, st.reinvested_total)
  let combined_cotas := res.1
  let combined_income := round2 (combined_cotas * avg_dividend)
  (⟨res.1, cumulative, res.2.1, res.2.2⟩,
    ⟨month_after last_month (offset : ℤ), cotas_before_reinvest, projected_income,
      cumulative, res.2.2, combined_cotas, combined_income⟩)

/-- The `for offset in range(1, months + 1)` loop of `project_income`. -/
def incomeLoop (avg_dividend avg_price monthly_cotas : ℚ) (last_month : String) :
    ℕ → ℕ → IncomeState → List ProjectionPoint
  | 0, _, _ => []
  | n + 1, offset, st =>
    let r := incomeStep avg_dividend avg_price monthly_cotas last_month offset st
    r.2 :: incomeLoop avg_dividend avg_price monthly_cotas last_month n (offset + 1) r.1

/-- Model of `FIIsTracker.project_income`; `now` stands for
`datetime.now().strftime("%Y-%m")`, used only when the fund has no record. -/
def project_income (fiis : List FII) (ticker : String) (months : ℕ)
    (monthly_cotas : ℚ) (window : Option ℤ) (now : String) :
    Except String (List ProjectionPoint) :=
  match find_fii fiis ticker with
  | none => Except.error ("FII " ++ ticker.toUpper ++ " nao encontrado.")
  | some fii =>
    let avg_dividend := fii.average_dividend_per_cota window
    let avg_price := effectiveAvgPrice fii
    let current_cotas := fii.total_cotas
    let last_month := match fii.last_record with | some r => r.month | none => now
    Except.ok
      (incomeLoop avg_dividend avg_price monthly_cotas last_month months 1
        ⟨current_cotas, 0, 0, 0⟩)

/-- One fund's slot in the `project_portfolio` state dict. -/
structure PortfolioEntry where
  cotas : ℚ
  monthly_add : ℚ
  avg_dividend : ℚ
deriving DecidableEq, Repr

/-- Model of `monthly_plan.get(t, 0.0)` on the uppercased dict comprehension
`{ticker.upper(): value ...}` — for duplicate uppercased keys the last
value wins. -/
def planGet (plan : List (String × ℚ)) (t : String) : ℚ :=
  match plan.reverse.find? (fun p => p.1.toUpper == t) with
  | some p => p.2
  | none => 0

/-- Python `max(iterable, default=dflt)` on strings (ties keep the
earlier element). -/
def pyMaxStr (l : List String) (dflt : String) : String :=
  match l with
  | [] => dflt
  | x :: xs => xs.foldl (fun a b => if strLe b a then a else b) x

/-- The dict comprehension `{fii.ticker: {...} for fii in fiis}`: a later
fund with a duplicate ticker overwrites the value kept at the first
position. -/
def dedupLastByTicker (fiis : List FII) : List FII :=
  fiis.foldl
    (fun acc f =>
      if acc.any (fun g => g.ticker == f.ticker) then
        acc.map (fun g => if g.ticker = f.ticker then f else g)
      else acc ++ [f])
    []

/-- The initial `state` dict of `project_portfolio`. -/
def portfolioInit (fiis : List FII) (plan : List (String × ℚ)) (window : Option ℤ) :
    List PortfolioEntry :=
  (dedupLastByTicker fiis).map
    (fun f => ⟨f.total_cotas, planGet plan f.ticker, f.average_dividend_per_cota window⟩)

/-- Model of `data["cotas"] += data["monthly_add"]` for every fund. -/
def portfolioStep (state : List PortfolioEntry) : List PortfolioEntry :=
  state.map (fun d => { d with cotas := d.cotas + d.monthly_add })

/-- The `for offset in range(1, months + 1)` loop of `project_portfolio`. -/
def portfolioLoop (reference_month : String) :
    ℕ → ℕ → List PortfolioEntry → ℚ → List ProjectionPoint
  | 0, _, _, _ => []
  | n + 1, offset, state, cumulative =>
    let state' := portfolioStep state
    let month_income := round2 ((state'.map (fun d => d.cotas * d.avg_dividend)).sum)
    let total_cotas := (state'.map (fun d => d.cotas)).sum
    let cumulative' := round2 (cumulative + month_income)
    ⟨month_after reference_month (offset : ℤ), total_cotas, month_income, cumulative',
        0, total_cotas, month_income⟩ ::
      portfolioLoop reference_month n (offset + 1) state' cumulative'

/-- Model of `FIIsTracker.project_portfolio`; `now` stands for the current calendar
month, used only when no fund has any record. -/
def project_portfolio (fiis : List FII) (months : ℕ) (monthly_plan : List (String × ℚ))
    (window : Option ℤ) (now : String) : List ProjectionPoint :=
  if fiis.isEmpty then []
  else
    let reference_month :=
      pyMaxStr (fiis.filterMap (fun f => (f.last_record).map (fun r => r.month))) now
    portfolioLoop reference_month months 1 (portfolioInit fiis monthly_plan window) 0

/-- JSON values as `json.load` produces them (numbers as rationals). -/
inductive Json where
  | null
  | bool (b : Bool)
  | num (q : ℚ)
  | str (s : String)
  | arr (items : List Json)
  | obj (fields : List (String × Json))

/-- Python `dict.get(k)` on a parsed JSON object (keys are unique). -/
def jsonGet (fields : List (String × Json)) (k : String) : Option Json :=
  (fields.find? (fun p => p.1 == k)).map (fun p => p.2)

/-- Python `dict.get(k, d)`. -/
def getDflt (fields : List (String × Json)) (k : String) (d : Json) : Json :=
  (jsonGet fields k).getD d

/-- The state of the data file: absent, present but not syntactically
valid JSON, or present with parsed contents `j`. -/
inductive StoredFile where
  | missing
  | unparsable
  | parsed (j : Json)

/-- Model of `storage.load_data`: a missing file is first created as
`{"fiis": []}` by `ensure_data_file`; a `json.JSONDecodeError` is replaced
by `{"fiis": []}`; then `content.setdefault("fiis", [])` runs — an
`AttributeError` when the parsed content is not an object. -/
def load_data : StoredFile → Except String Json
  | StoredFile.missing => Except.ok (Json.obj [("fiis", Json.arr [])])
  | StoredFile.unparsable => Except.ok (Json.obj [("fiis", Json.arr [])])
  | StoredFile.parsed j =>
    match j with
    | Json.obj fields =>
      Except.ok
        (Json.obj
          (if (jsonGet fields "fiis").isSome then fields
           else fields ++ [("fiis", Json.arr [])]))
    | _ => Except.error "AttributeError"

/-- A value used where a `str` is expected.  (Python would defer the type
error; we surface it at conversion — these branches are never taken on
payloads the tracker itself writes.) -/
def asStr : Json → Except String String
  | Json.str s => Except.ok s
  | _ => Except.error "TypeError"

/-- Python `float(x)` on a JSON number.  (Python would also coerce bools
and numeric strings; those branches are never taken on payloads the
tracker itself writes.) -/
def asNum : Json → Except String ℚ
  | Json.num q => Except.ok q
  | _ => Except.error "TypeError"

/-- A value iterated as a list. -/
def asArr : Json → Except String (List Json)
  | Json.arr l => Except.ok l
  | _ => Except.error "TypeError"

/-- Model of `MonthlyRecord.from_dict`. -/
def recordFromJson (j : Json) : Except String MonthlyRecord :=
  match j with
  | Json.obj fields => do
    let month ← asStr (getDflt fields "month" (Json.str ""))
    let cotas_added ← asNum (getDflt fields "cotas_added" (Json.num 0))
    let price_per_cota ← asNum (getDflt fields "price_per_cota" (Json.num 0))
    let dividend_per_cota ← asNum (getDflt fields "dividend_per_cota" (Json.num 0))
    let dividend_total ←
      match jsonGet fields "dividend_total" with
      | none => Except.ok none
      | some Json.null => Except.ok none
      | some (Json.num q) => Except.ok (some q)
      | some _ => Except.error "TypeError"
    let notes ← asStr (getDflt fields "notes" (Json.str ""))
    Except.ok ⟨month, cotas_added, price_per_cota, dividend_per_cota, dividend_total, notes⟩
  | _ => Except.error "AttributeError"

/-- Model of `FII.from_dict`: parse the entries, sort them by month, uppercase the
ticker. -/
def fiiFromJson (j : Json) : Except String FII :=
  match j with
  | Json.obj fields => do
    let items ← asArr (getDflt fields "entries" (Json.arr []))
    let entries ← items.mapM recordFromJson
    let ticker ← asStr (getDflt fields "ticker" (Json.str ""))
    let name ← asStr (getDflt fields "name" (Json.str ""))
    let sector ← asStr (getDflt fields "sector" (Json.str ""))
    Except.ok ⟨ticker.toUpper, name, sector, sortByMonth entries⟩
  | _ => Except.error "AttributeError"

/-- Model of `MonthlyRecord.to_dict`. -/
def recordToJson (r : MonthlyRecord) : Json :=
  Json.obj
    [("month", Json.str r.month),
     ("cotas_added", Json.num r.cotas_added),
     ("price_per_cota", Json.num r.price_per_cota),
     ("dividend_per_cota", Json.num r.dividend_per_cota),
     ("dividend_total",
       match r.dividend_total with
       | none => Json.null
       | some q => Json.num q),
     ("notes", Json.str r.notes)]

/-- Model of `FII.to_dict`: entries are written sorted by month. -/
def fiiToJson (f : FII) : Json :=
  Json.obj
    [("ticker", Json.str f.ticker.toUpper),
     ("name", Json.str f.name),
     ("sector", Json.str f.sector),
     ("entries", Json.arr ((sortByMonth f.entries).map recordToJson))]

/-- The payload `FIIsTracker._save` passes to `save_data`
(`json.dump`/`json.load` are faithful on these values). -/
def savePayload (fiis : List FII) : Json :=
  Json.obj [("fiis", Json.arr (fiis.map fiiToJson))]

/-- Model of `FIIsTracker._load_fiis`: `load_data`, parse each item of `fiis`,
sort the funds by ticker. -/
def loadFiis (file : StoredFile) : Except String (List FII) := do
  let raw ← load_data file
  let fields ←
    match raw with
    | Json.obj fields => Except.ok fields
    | _ => Except.error "AttributeError"
  let items ← asArr (getDflt fields "fiis" (Json.arr []))
  let fiis ← items.mapM fiiFromJson
  Except.ok (sortByTicker fiis)

/-! ### Spec-side definitions, written from the spec's wording -/

/-- Spec wording (§4.1): the qualifying observations — the strictly
positive dividend-per-unit values, in entry order. -/
def qualifyingDividends (f : FII) : List ℚ :=
  (f.entries.filter (fun e => decide (0 < e.dividend_per_cota))).map
    (fun e => e.dividend_per_cota)

/-- Spec wording: the last `n` elements of a list (all of them when `n`
is at least the length). -/
def lastN {α : Type} (l : List α) (n : ℕ) : List α :=
  l.drop (l.length - n)

/-- Spec wording (§4.4 step 4): the reinvestment price — the fund's
historical average price, floored to `1.0` when that historical average
is `0`. -/
def specEffectivePrice (f : FII) : ℚ :=
  if f.average_price = 0 then 1 else f.average_price

/-- Spec wording (§4.4 steps 1–5 with the §9 per-step rounding): add the
monthly units; `projected_income = round(units × avg_dividend, 2)`;
accumulate cumulative income and cash remainder, rounding at each
accumulation; buy `floor(cash_remainder / avg_price)` whole units,
subtracting their cost and carrying the fractional cash; emit the point
with the pre-reinvestment count, this step's income, cumulative income,
cumulative reinvested units, combined count and combined income. -/
def specIncomeStep (avg_dividend avg_price monthly_cotas : ℚ) (last_month : String)
    (offset : ℕ) (st : IncomeState) : IncomeState × ProjectionPoint :=
  let units := st.cotas + monthly_cotas
  let projected_income := round2 (units * avg_dividend)
  let cumulative := round2 (st.cumulative + projected_income)
  let cash := round2 (st.cash_remainder + projected_income)
  let purchasable := qfloor (cash / avg_price)
  let combined := units + (purchasable : ℚ)
  let cash_after := round2 (cash - (purchasable : ℚ) * avg_price)
  let reinvested := st.reinvested_total + (purchasable : ℚ)
  (⟨combined, cumulative, cash_after, reinvested⟩,
    ⟨month_after last_month (offset : ℤ), units, projected_income, cumulative,
      reinvested, combined, round2 (combined * avg_dividend)⟩)

/-- Spec wording: the per-step simulation over `offset = 1..months`. -/
def specIncomeLoop (avg_dividend avg_price monthly_cotas : ℚ) (last_month : String) :
    ℕ → ℕ → IncomeState → List ProjectionPoint
  | 0, _, _ => []
  | n + 1, offset, st =>
    let r := specIncomeStep avg_dividend avg_price monthly_cotas last_month offset st
    r.2 :: specIncomeLoop avg_dividend avg_price monthly_cotas last_month n (offset + 1) r.1

/-- Spec wording: the single-fund projection of §4.4, with the averages
fixed once before the loop. -/
def spec_income_points (fii : FII) (months : ℕ) (monthly_cotas : ℚ)
    (window : Option ℤ) (now : String) : List ProjectionPoint :=
  let avg_dividend := fii.average_dividend_per_cota window
  let avg_price := specEffectivePrice fii
  let last_month := match fii.last_record with | some r => r.month | none => now
  specIncomeLoop avg_dividend avg_price monthly_cotas last_month months 1
    ⟨fii.total_cotas, 0, 0, 0⟩

/-! ### Shared concrete values (the spec's end-to-end scenario) -/

/-- Fund with dividend history `[0.3, 0, 0.5, 0.4]` (spec §8). -/
def dividendFund : FII :=
  ⟨"WXYZ11", "Fundo WXYZ", "",
    [⟨"2024-01", 0, 0, 3/10, none, ""⟩, ⟨"2024-02", 0, 0, 0, none, ""⟩,
      ⟨"2024-03", 0, 0, 1/2, none, ""⟩, ⟨"2024-04", 0, 0, 2/5, none, ""⟩]⟩

/-- The record of the spec's end-to-end scenario, with the derived
`dividend_total` already present. -/
def sampleRecord : MonthlyRecord :=
  ⟨"2024-01", 100, 10, 1/2, some 50, ""⟩

/-- Fund `ABCD11` holding exactly `sampleRecord`. -/
def sampleFund : FII :=
  ⟨"ABCD11", "Fundo ABCD", "", [sampleRecord]⟩

/-- Fund `ABCD11` with no entries yet. -/
def emptyFund : FII :=
  ⟨"ABCD11", "Fundo ABCD", "", []⟩

/-- The scenario's incoming record, before `dividend_total` is derived. -/
def newRecord : MonthlyRecord :=
  ⟨"2024-01", 100, 10, 1/2, none, ""⟩

/-- Fund whose entries were inserted out of chronological order. -/
def roundtripFund : FII :=
  ⟨"ABCD11", "Fundo ABCD", "",
    [⟨"2024-02", 5, 2, 0, none, "b"⟩, ⟨"2024-01", 100, 10, 1/2, some 50, "a"⟩]⟩

/-! ### Lemmas about sorting and lookup -/

theorem charListLe_total : ∀ as bs : List Char,
    charListLe as bs = true ∨ charListLe bs as = true
  | [], _ => Or.inl rfl
  | _ :: _, [] => Or.inr rfl
  | a :: as, b :: bs => by
      rcases lt_trichotomy a b with h | h | h
      · left; simp [charListLe, h]
      · subst h
        rcases charListLe_total as bs with ih | ih
        · left; simp [charListLe, lt_irrefl, ih]
        · right; simp [charListLe, lt_irrefl, ih]
      · right; simp [charListLe, h]

theorem charListLe_trans : ∀ as bs cs : List Char,
    charListLe as bs = true → charListLe bs cs = true → charListLe as cs = true
  | [], _, _, _, _ => rfl
  | _ :: _, [], _, h1, _ => by simp [charListLe] at h1
  | _ :: _, _ :: _, [], _, h2 => by simp [charListLe] at h2
  | a :: as, b :: bs, c :: cs, h1, h2 => by
      by_cases hab : a < b
      · by_cases hbc : b < c
        · simp [charListLe, lt_trans hab hbc]
        · by_cases hcb : c < b
          · simp [charListLe, hbc, hcb] at h2
          · obtain rfl : b = c := le_antisymm (not_lt.mp hcb) (not_lt.mp hbc)
            simp [charListLe, hab]
      · by_cases hba : b < a
        · simp [charListLe, hab, hba] at h1
        · obtain rfl : a = b := le_antisymm (not_lt.mp hba) (not_lt.mp hab)
          simp only [charListLe, if_neg hab, if_neg hba] at h1
          by_cases hac : a < c
          · simp [charListLe, hac]
          · by_cases hca : c < a
            · simp [charListLe, hac, hca] at h2
            · obtain rfl : a = c := le_antisymm (not_lt.mp hca) (not_lt.mp hac)
              simp only [charListLe, if_neg hac, if_neg hca] at h2 ⊢
              exact charListLe_trans as bs cs h1 h2

theorem strLe_total (a b : String) : strLe a b = true ∨ strLe b a = true :=
  charListLe_total a.data b.data

theorem strLe_trans {a b c : String} (h1 : strLe a b = true) (h2 : strLe b c = true) :
    strLe a c = true :=
  charListLe_trans a.data b.data c.data h1 h2

theorem mem_insertLe {α : Type} (le : α → α → Bool) (a y : α) :
    ∀ l : List α, y ∈ insertLe le a l → y = a ∨ y ∈ l
  | [], h => Or.inl (by simpa [insertLe] using h)
  | b :: t, h => by
      rw [insertLe] at h
      by_cases hab : le a b = true
      · rw [if_pos hab] at h
        rcases List.mem_cons.mp h with rfl | h'
        · exact Or.inl rfl
        · exact Or.inr h'
      · rw [if_neg hab] at h
        rcases List.mem_cons.mp h with rfl | h'
        · exact Or.inr (List.mem_cons_self _ _)
        · rcases mem_insertLe le a y t h' with h'' | h''
          · exact Or.inl h''
          · exact Or.inr (List.mem_cons_of_mem _ h'')

theorem pairwise_insertLe {α : Type} (le : α → α → Bool)
    (htot : ∀ a b, le a b = true ∨ le b a = true)
    (htrans : ∀ a b c, le a b = true → le b c = true → le a c = true) (a : α) :
    ∀ l : List α, l.Pairwise (fun x y => le x y = true) →
      (insertLe le a l).Pairwise (fun x y => le x y = true)
  | [], _ => by simp [insertLe]
  | b :: t, h => by
      obtain ⟨hb, ht⟩ := List.pairwise_cons.mp h
      rw [insertLe]
      by_cases hab : le a b = true
      · rw [if_pos hab]
        refine List.pairwise_cons.mpr ⟨?_, h⟩
        intro y hy
        rcases List.mem_cons.mp hy with rfl | hyt
        · exact hab
        · exact htrans a b y hab (hb y hyt)
      · rw [if_neg hab]
        have hba : le b a = true := (htot a b).resolve_left hab
        refine List.pairwise_cons.mpr ⟨?_, pairwise_insertLe le htot htrans a t ht⟩
        intro y hy
        rcases mem_insertLe le a y t hy with rfl | hyt
        · exact hba
        · exact hb y hyt

theorem pairwise_sortLe {α : Type} (le : α → α → Bool)
    (htot : ∀ a b, le a b = true ∨ le b a = true)
    (htrans : ∀ a b c, le a b = true → le b c = true → le a c = true) :
    ∀ l : List α, (sortLe le l).Pairwise (fun x y => le x y = true)
  | [] => List.Pairwise.nil
  | a :: t => pairwise_insertLe le htot htrans a (sortLe le t)
      (pairwise_sortLe le htot htrans t)

theorem sortLe_of_pairwise {α : Type} (le : α → α → Bool) :
    ∀ l : List α, l.Pairwise (fun x y => le x y = true) → sortLe le l = l
  | [], _ => rfl
  | a :: l, h => by
      obtain ⟨ha, hl⟩ := List.pairwise_cons.mp h
      rw [sortLe, sortLe_of_pairwise le l hl]
      cases l with
      | nil => rfl
      | cons b t => rw [insertLe, if_pos (ha b (List.mem_cons_self b t))]

theorem sortByMonth_idem (l : List MonthlyRecord) :
    sortByMonth (sortByMonth l) = sortByMonth l :=
  sortLe_of_pairwise recordLe (sortByMonth l)
    (pairwise_sortLe recordLe (fun a b => strLe_total a.month b.month)
      (fun _ _ _ h1 h2 => strLe_trans h1 h2) l)

theorem insertLe_length {α : Type} (le : α → α → Bool) (a : α) (l : List α) :
    (insertLe le a l).length = l.length + 1 := by
  induction l with
  | nil => rfl
  | cons b t ih =>
    simp only [insertLe]
    split
    · simp
    · simp [ih]

theorem sortLe_length {α : Type} (le : α → α → Bool) (l : List α) :
    (sortLe le l).length = l.length := by
  induction l with
  | nil => rfl
  | cons a t ih => simp [sortLe, insertLe_length, ih]

theorem find_fii_ticker {fiis : List FII} {t : String} {fii : FII}
    (h : find_fii fiis t = some fii) : fii.ticker = t.toUpper := by
  unfold find_fii at h
  simpa using List.find?_some h

theorem find_fii_updateFirst (g : FII → FII) :
    ∀ (fiis : List FII) (t : String) (fii : FII), find_fii fiis t = some fii →
      (g fii).ticker = fii.ticker →
      find_fii (updateFirst fiis fii.ticker g) t = some (g fii)
  | [], _, _, h, _ => by simp [find_fii] at h
  | f :: rest, t, fii, h, hg => by
    have htick := find_fii_ticker h
    by_cases hf : f.ticker = t.toUpper
    · have hfind : find_fii (f :: rest) t = some f := by
        simp [find_fii, List.find?_cons_of_pos, hf]
      rw [h] at hfind
      obtain rfl : fii = f := by simpa using hfind
      simp only [updateFirst, if_pos rfl]
      simp [find_fii, List.find?_cons_of_pos, hg.trans htick]
    · have hskip : f.ticker ≠ fii.ticker := by rw [htick]; exact hf
      have hrest : find_fii rest t = some fii := by
        simpa [find_fii, List.find?_cons, hf] using h
      simp only [updateFirst, if_neg hskip]
      have hgf : (g fii).ticker ≠ t.toUpper → True := fun _ => trivial
      have := find_fii_updateFirst g rest t fii hrest hg
      simpa [find_fii, List.find?_cons, hf] using this

/-! ### C1 — register_month does not deduplicate by month -/

/-- C1 counterexample: registering a second record with the existing month
key `"2024-01"` leaves the fund with two records for that month — the
record count increases on the second call, contradicting the claimed
update-in-place invariant. -/
theorem register_month_duplicates_month :
    ((register_month [sampleFund] "ABCD11" ⟨"2024-01", 0, 0, 0, some 0, ""⟩).fiis.map
      (fun f => f.entries.map (fun e => e.month))) = [["2024-01", "2024-01"]] := by
  with_unfolding_all rfl

theorem register_month_result (fiis : List FII) (t : String) (r : MonthlyRecord)
    (fii : FII) (h : find_fii fiis t = some fii) :
    ∃ rec', register_month fiis t r =
      ⟨Except.ok rec',
        updateFirst fiis fii.ticker
          (fun f => { f with entries := sortByMonth (f.entries ++ [rec']) }),
        true⟩ := by
  refine
    ⟨if r.dividend_total = none ∧ r.dividend_per_cota ≠ 0 then
        { r with
          dividend_total :=
            some (round2 (r.dividend_per_cota * (fii.total_cotas + r.cotas_added))) }
      else r, ?_⟩
  simp only [register_month, h]

/-- C1 amended: `register_month` on a known ticker always appends — the
fund's record count grows by exactly one on every successful call, also
when a record with the same month key already exists (and the state is
saved); deduplication by month is not performed. -/
theorem register_month_appends (fiis : List FII) (t : String) (r : MonthlyRecord)
    (fii : FII) (h : find_fii fiis t = some fii) :
    ∃ fii', find_fii (register_month fiis t r).fiis t = some fii' ∧
      fii'.entries.length = fii.entries.length + 1 ∧
      (register_month fiis t r).saved = true := by
  obtain ⟨rec', hreg⟩ := register_month_result fiis t r fii h
  refine ⟨{ fii with entries := sortByMonth (fii.entries ++ [rec']) }, ?_, ?_, ?_⟩
  · rw [hreg]
    exact find_fii_updateFirst _ fiis t fii h rfl
  · simp [sortByMonth, sortLe_length]
  · rw [hreg]

/-- C1 witness: on the sample state the fund ends with two records. -/
theorem register_month_appends_witness :
    ∃ fii', find_fii (register_month [sampleFund] "ABCD11"
        ⟨"2024-01", 0, 0, 0, some 0, ""⟩).fiis "ABCD11" = some fii' ∧
      fii'.entries.length = sampleFund.entries.length + 1 ∧
      (register_month [sampleFund] "ABCD11" ⟨"2024-01", 0, 0, 0, some 0, ""⟩).saved = true :=
  register_month_appends [sampleFund] "ABCD11" ⟨"2024-01", 0, 0, 0, some 0, ""⟩
    sampleFund (by with_unfolding_all rfl)

/-! ### C2 — derived dividend_total on the post-purchase count -/

/-- C2: when `dividend_total` is absent and `dividend_per_cota` is nonzero,
`register_month` returns the record with
`dividend_total = round(dividend_per_cota * (total_cotas_before + cotas_added), 2)`. -/
theorem register_month_derives_total (fiis : List FII) (t : String) (r : MonthlyRecord)
    (fii : FII) (h : find_fii fiis t = some fii) (hnone : r.dividend_total = none)
    (hdpc : r.dividend_per_cota ≠ 0) :
    (register_month fiis t r).outcome =
      Except.ok
        { r with
          dividend_total :=
            some (round2 (r.dividend_per_cota * (fii.total_cotas + r.cotas_added))) } := by
  simp only [register_month, h, if_pos (And.intro hnone hdpc)]

/-- C2 witness: the spec scenario — an empty `ABCD11` fund, the record
`{month: 2024-01, cotas: 100, price: 10, dividend_per_cota: 0.5}` — yields
`dividend_total = 50`. -/
theorem register_month_derives_total_witness :
    (register_month [emptyFund] "ABCD11" newRecord).outcome =
      Except.ok ⟨"2024-01", 100, 10, 1/2, some 50, ""⟩ :=
  (register_month_derives_total [emptyFund] "ABCD11" newRecord emptyFund
      (by with_unfolding_all rfl) rfl (by norm_num [newRecord])).trans
    (by with_unfolding_all rfl)

/-! ### C7 — zero total units never divide -/

/-- C7: a fund with zero total cotas has `average_price = 0` (no division
error — the source branches before dividing); `project_income` floors a
zero historical average price to `1.0`, and the price it divides by is
always strictly positive. -/
theorem zero_cotas_safe (f : FII) :
    (f.total_cotas = 0 → f.average_price = 0) ∧
    (f.average_price = 0 → effectiveAvgPrice f = 1) ∧
    0 < effectiveAvgPrice f := by
  refine ⟨fun h => ?_, fun h => ?_, ?_⟩
  · simp [FII.average_price, h]
  · simp [effectiveAvgPrice, h]
  · simp only [effectiveAvgPrice]
    rcases le_or_lt f.average_price 0 with hp | hp
    · rw [if_pos hp]; norm_num
    · rw [if_neg (not_le.mpr hp)]; exact hp

/-- C7 witness: the empty fund evaluates to average price `0` and
effective projection price `1`. -/
theorem zero_cotas_safe_witness :
    FII.average_price emptyFund = 0 ∧ effectiveAvgPrice emptyFund = 1 :=
  ⟨(zero_cotas_safe emptyFund).1 rfl,
    (zero_cotas_safe emptyFund).2.1 ((zero_cotas_safe emptyFund).1 rfl)⟩

/-! ### C8 — corruption recovery in load -/

/-- C8 amended: `load` yields an empty portfolio when the data file is
missing or its contents are not syntactically valid JSON.  (Contents that
parse as JSON but are not an object are NOT recovered — see the
counterexample.) -/
theorem loadFiis_recovers :
    loadFiis StoredFile.missing = Except.ok [] ∧
    loadFiis StoredFile.unparsable = Except.ok [] :=
  ⟨rfl, rfl⟩

/-- C8 counterexample: a stored file whose contents are the valid JSON
array `[]` is corrupt storage, yet `load` raises (`content.setdefault` on
a list) instead of yielding an empty portfolio. -/
theorem loadFiis_error_on_json_array :
    loadFiis (StoredFile.parsed (Json.arr [])) = Except.error "AttributeError" :=
  rfl

/-! ### C10 — failed month update is atomic -/

theorem replaceMonth_eq_none (entries : List MonthlyRecord) (orig : String)
    (u : MonthlyRecord) (h : ∀ e ∈ entries, e.month ≠ orig) :
    replaceMonth entries orig u = none := by
  induction entries with
  | nil => rfl
  | cons e rest ih =>
    simp only [replaceMonth, if_neg (h e (List.mem_cons_self e rest))]
    rw [ih fun x hx => h x (List.mem_cons_of_mem e hx)]
    rfl

/-- C10: when the fund exists but none of its entries has the requested
month, `update_month_record` raises, the portfolio state is returned
unchanged, and no save happens. -/
theorem update_month_not_found (fiis : List FII) (t m : String) (u : MonthlyRecord)
    (fii : FII) (h : find_fii fiis t = some fii)
    (hnone : ∀ e ∈ fii.entries, e.month ≠ m) :
    update_month_record fiis t m u =
      ⟨Except.error ("Mes " ++ m ++ " nao encontrado para " ++ t.toUpper ++ "."),
        fiis, false⟩ := by
  simp only [update_month_record, h, replaceMonth_eq_none fii.entries m u hnone]

/-- C10 witness: updating month `"2024-02"` of the sample fund (which only
has `"2024-01"`) errors and leaves the state and storage untouched. -/
theorem update_month_not_found_witness :
    update_month_record [sampleFund] "ABCD11" "2024-02" newRecord =
      ⟨Except.error "Mes 2024-02 nao encontrado para ABCD11.", [sampleFund], false⟩ :=
  (update_month_not_found [sampleFund] "ABCD11" "2024-02" newRecord sampleFund
      (by with_unfolding_all rfl) (by with_unfolding_all decide)).trans
    (by with_unfolding_all rfl)

/-! ### C5 — normalize_month -/

theorem strptimeYMD_bounds {s : String} {y m d : ℕ}
    (h : strptimeYMD s = some (y, m, d)) :
    1 ≤ y ∧ y ≤ 9999 ∧ 1 ≤ m ∧ m ≤ 12 := by
  unfold strptimeYMD at h
  split at h
  · exact absurd h (by simp)
  · split at h
    · next hcond =>
        obtain ⟨rfl, rfl, rfl⟩ : _ = y ∧ _ = m ∧ _ = d := by simpa using h
        exact ⟨hcond.1, hcond.2.1, hcond.2.2.1, hcond.2.2.2.1⟩
    · exact absurd h (by simp)

/-- C5: `normalize_month` normalizes `2024/03` and `202403` to `2024-03`,
rejects `2024-13` with the `InvalidMonth` error message, and every
successful result is the canonical zero-padded `YYYY-MM` rendering of a
real calendar year-month. -/
theorem normalize_month_spec :
    normalize_month "2024/03" = Except.ok "2024-03" ∧
    normalize_month "202403" = Except.ok "2024-03" ∧
    normalize_month "2024-13" = Except.error "Informe o mes no formato AAAA-MM" ∧
    ∀ s out, normalize_month s = Except.ok out →
      ∃ y m, 1 ≤ y ∧ y ≤ 9999 ∧ 1 ≤ m ∧ m ≤ 12 ∧ out = pad4 y ++ "-" ++ pad2 m := by
  refine ⟨by with_unfolding_all rfl, by with_unfolding_all rfl,
    by with_unfolding_all rfl, ?_⟩
  intro s out h
  unfold normalize_month at h
  cases hm : strptimeYMD (sanitizeMonth s ++ "-01") with
  | none => rw [hm] at h; exact absurd h (by simp)
  | some t =>
      obtain ⟨y, m, d⟩ := t
      rw [hm] at h
      obtain ⟨h1, h2, h3, h4⟩ := strptimeYMD_bounds hm
      exact ⟨y, m, h1, h2, h3, h4, by simpa using h.symm⟩

/-- C5 witness: the canonical-form clause exercised at `"2024/03"`. -/
theorem normalize_month_spec_witness :
    ∃ y m, 1 ≤ y ∧ y ≤ 9999 ∧ 1 ≤ m ∧ m ≤ 12 ∧ "2024-03" = pad4 y ++ "-" ++ pad2 m :=
  normalize_month_spec.2.2.2 "2024/03" "2024-03" normalize_month_spec.1

/-! ### C6 — windowed dividend average -/

theorem average_dividend_window (f : FII) (w : ℤ) (hw : 0 < w) :
    f.average_dividend_per_cota (some w) =
      (if qualifyingDividends f = [] then 0
       else listMean (lastN (qualifyingDividends f) w.toNat)) := by
  have htr : optTruthy (some w) = true := by
    simp only [optTruthy, bne_iff_ne, ne_eq]
    omega
  have hneg : -w < 0 := by omega
  have hmin : (qualifyingDividends f).length -
      min (qualifyingDividends f).length w.toNat =
      (qualifyingDividends f).length - w.toNat := by omega
  simp only [FII.average_dividend_per_cota, htr, if_true, Option.getD_some,
    pySliceFrom, if_pos hneg, neg_neg, List.isEmpty_iff]
  rw [show (f.entries.filter (fun e => decide (0 < e.dividend_per_cota))).map
      (fun e => e.dividend_per_cota) = qualifyingDividends f from rfl]
  rw [hmin, lastN]

theorem average_dividend_all (f : FII) :
    f.average_dividend_per_cota none =
      (if qualifyingDividends f = [] then 0 else listMean (qualifyingDividends f)) := by
  simp only [FII.average_dividend_per_cota, optTruthy, Bool.false_eq_true, if_false,
    List.isEmpty_iff]
  rfl

/-- C6: `average_dividend_per_cota` keeps only the strictly positive
dividend observations, averages the last `window` of them when a positive
window is given and all of them when `window` is `None`, returns `0` when
none qualify, and evaluates to `0.45` on the history `[0.3, 0, 0.5, 0.4]`
with `window = 2`. -/
theorem average_dividend_spec :
    (∀ (f : FII) (w : ℤ), 0 < w →
      f.average_dividend_per_cota (some w) =
        (if qualifyingDividends f = [] then 0
         else listMean (lastN (qualifyingDividends f) w.toNat))) ∧
    (∀ f : FII,
      f.average_dividend_per_cota none =
        (if qualifyingDividends f = [] then 0 else listMean (qualifyingDividends f))) ∧
    dividendFund.average_dividend_per_cota (some 2) = 9/20 :=
  ⟨average_dividend_window, average_dividend_all, by with_unfolding_all rfl⟩

/-- C6 witness: the windowed clause exercised at the `[0.3, 0, 0.5, 0.4]`
history with window `2`, evaluating to `0.45`. -/
theorem average_dividend_spec_witness :
    dividendFund.average_dividend_per_cota (some 2) =
      (if qualifyingDividends dividendFund = [] then 0
       else listMean (lastN (qualifyingDividends dividendFund) (2 : ℤ).toNat)) ∧
    dividendFund.average_dividend_per_cota (some 2) = 9/20 :=
  ⟨average_dividend_spec.1 dividendFund 2 (by norm_num), average_dividend_spec.2.2⟩

/-! ### C4 — portfolio projection is purely additive -/

theorem portfolioLoop_fields (reference_month : String) :
    ∀ (n offset : ℕ) (state : List PortfolioEntry) (cumulative : ℚ) (i : ℕ)
      (pt : ProjectionPoint),
      (portfolioLoop reference_month n offset state cumulative)[i]? = some pt →
      pt.reinvested_cotas = 0 ∧ pt.combined_cotas = pt.projected_cotas ∧
      pt.combined_income = pt.projected_income ∧
      pt.projected_cotas =
        (state.map (fun d => d.cotas + ((i : ℚ) + 1) * d.monthly_add)).sum
  | 0, _, _, _, i, pt, h => by simp [portfolioLoop] at h
  | n + 1, offset, state, cumulative, 0, pt, h => by
      simp only [portfolioLoop, List.getElem?_cons_zero, Option.some.injEq] at h
      subst h
      refine ⟨rfl, rfl, rfl, ?_⟩
      simp only [portfolioStep, List.map_map]
      refine congrArg List.sum (List.map_congr_left fun d _ => ?_)
      simp only [Function.comp_apply]
      push_cast
      ring
  | n + 1, offset, state, cumulative, i + 1, pt, h => by
      simp only [portfolioLoop, List.getElem?_cons_succ] at h
      obtain ⟨h1, h2, h3, h4⟩ :=
        portfolioLoop_fields reference_month n (offset + 1) (portfolioStep state) _ i pt h
      refine ⟨h1, h2, h3, ?_⟩
      rw [h4]
      simp only [portfolioStep, List.map_map]
      refine congrArg List.sum (List.map_congr_left fun d _ => ?_)
      simp only [Function.comp_apply]
      push_cast
      ring

/-- C4: every `ProjectionPoint` of `project_portfolio` has a zero
reinvested-units field and `combined` fields equal to the non-reinvested
totals; the unit count at step `i` is the sum over the state of
`initial cotas + (i+1) · plan amount` — purely additive, with the plan
amount defaulting to `0` for funds not named in the plan. -/
theorem project_portfolio_additive :
    (∀ (fiis : List FII) (months : ℕ) (plan : List (String × ℚ)) (w : Option ℤ)
      (now : String) (i : ℕ) (pt : ProjectionPoint),
      (project_portfolio fiis months plan w now)[i]? = some pt →
      pt.reinvested_cotas = 0 ∧ pt.combined_cotas = pt.projected_cotas ∧
      pt.combined_income = pt.projected_income ∧
      pt.projected_cotas =
        ((portfolioInit fiis plan w).map
          (fun d => d.cotas + ((i : ℚ) + 1) * d.monthly_add)).sum) ∧
    (∀ (plan : List (String × ℚ)) (t : String),
      (∀ p ∈ plan, p.1.toUpper ≠ t) → planGet plan t = 0) := by
  constructor
  · intro fiis months plan w now i pt h
    unfold project_portfolio at h
    split at h
    · simp at h
    · exact portfolioLoop_fields _ months 1 _ 0 i pt h
  · intro plan t hp
    unfold planGet
    have hnone : plan.reverse.find? (fun p => p.1.toUpper == t) = none :=
      List.find?_eq_none.mpr fun x hx => by
        simpa using hp x (List.mem_reverse.mp hx)
    rw [hnone]

/-- C4 witness: the one-fund portfolio with plan `{abcd11: 3}` at step 0 —
the emitted point has reinvested `0`, combined fields equal to the totals,
and `103 = 100 + 1·3` units. -/
theorem project_portfolio_additive_witness :
    ∃ pt, (project_portfolio [sampleFund] 1 [("abcd11", 3)] none "2024-01")[0]? =
        some pt ∧
      pt.reinvested_cotas = 0 ∧ pt.combined_cotas = pt.projected_cotas ∧
      pt.combined_income = pt.projected_income ∧
      pt.projected_cotas =
        ((portfolioInit [sampleFund] [("abcd11", 3)] none).map
          (fun d => d.cotas + (((0 : ℕ) : ℚ) + 1) * d.monthly_add)).sum :=
  ⟨⟨"2024-02", 103, 103/2, 103/2, 0, 103, 103/2⟩,
    by with_unfolding_all rfl,
    project_portfolio_additive.1 [sampleFund] 1 [("abcd11", 3)] none "2024-01" 0
      ⟨"2024-02", 103, 103/2, 103/2, 0, 103, 103/2⟩ (by with_unfolding_all rfl)⟩

/-! ### C9 — save/load round trip -/

theorem mapM_ok {α β : Type} (g : β → Except String α) (f : α → β) (h : α → α) :
    ∀ l : List α, (∀ a ∈ l, g (f a) = Except.ok (h a)) →
      (l.map f).mapM g = Except.ok (l.map h)
  | [], _ => rfl
  | a :: t, hp => by
      rw [List.map_cons, List.mapM_cons, hp a (List.mem_cons_self a t),
        mapM_ok g f h t (fun x hx => hp x (List.mem_cons_of_mem a hx))]
      rfl

theorem recordFromJson_toJson (r : MonthlyRecord) :
    recordFromJson (recordToJson r) = Except.ok r := by
  obtain ⟨month, ca, pp, dp, dt, notes⟩ := r
  cases dt <;> rfl

theorem fiiFromJson_toJson (f : FII) (hup : f.ticker.toUpper = f.ticker) :
    fiiFromJson (fiiToJson f) = Except.ok { f with entries := sortByMonth f.entries } := by
  obtain ⟨t, n, s, e⟩ := f
  have hup' : t.toUpper = t := hup
  have hmapM : ((sortByMonth e).map recordToJson).mapM recordFromJson =
      Except.ok (sortByMonth e) := by
    have h2 := mapM_ok recordFromJson recordToJson id (sortByMonth e)
      (fun a _ => recordFromJson_toJson a)
    simpa using h2
  have step1 : fiiFromJson (fiiToJson ⟨t, n, s, e⟩) =
      (((sortByMonth e).map recordToJson).mapM recordFromJson).bind
        (fun entries => Except.ok ⟨t.toUpper.toUpper, n, s, sortByMonth entries⟩) := rfl
  rw [step1, hmapM]
  show Except.ok (⟨t.toUpper.toUpper, n, s, sortByMonth (sortByMonth e)⟩ : FII) = _
  rw [sortByMonth_idem]
  simp only [hup']

/-- C9: saving a ticker-sorted portfolio of uppercase-ticker funds and
loading it back reproduces exactly the same funds and records, with each
fund's entries re-ordered chronologically by month regardless of the
insertion order before the save. -/
theorem loadFiis_savePayload (fs : List FII)
    (hup : ∀ f ∈ fs, f.ticker.toUpper = f.ticker)
    (hsort : fs.Pairwise (fun a b => fiiLe a b = true)) :
    loadFiis (StoredFile.parsed (savePayload fs)) =
      Except.ok (fs.map (fun f => { f with entries := sortByMonth f.entries })) := by
  have hmapM : (fs.map fiiToJson).mapM fiiFromJson =
      Except.ok (fs.map (fun f => { f with entries := sortByMonth f.entries })) :=
    mapM_ok fiiFromJson fiiToJson _ fs (fun a ha => fiiFromJson_toJson a (hup a ha))
  have step1 : loadFiis (StoredFile.parsed (savePayload fs)) =
      ((fs.map fiiToJson).mapM fiiFromJson).bind
        (fun fiis => Except.ok (sortByTicker fiis)) := rfl
  have hpair : (fs.map (fun f => ({ f with entries := sortByMonth f.entries } : FII))).Pairwise
      (fun a b => fiiLe a b = true) :=
    List.Pairwise.map _ (fun a b hab => hab) hsort
  rw [step1, hmapM]
  show Except.ok
      (sortLe fiiLe (fs.map (fun f => ({ f with entries := sortByMonth f.entries } : FII)))) = _
  rw [sortLe_of_pairwise fiiLe _ hpair]

/-- C9 witness: a fund with entries inserted out of order round-trips to
the same fund with the entries in chronological order. -/
theorem loadFiis_savePayload_witness :
    loadFiis (StoredFile.parsed (savePayload [roundtripFund])) =
      Except.ok
        [⟨"ABCD11", "Fundo ABCD", "",
          [⟨"2024-01", 100, 10, 1/2, some 50, "a"⟩, ⟨"2024-02", 5, 2, 0, none, "b"⟩]⟩] :=
  (loadFiis_savePayload [roundtripFund] (by with_unfolding_all decide)
      (by with_unfolding_all decide)).trans (by with_unfolding_all rfl)

/-! ### C3 — the single-fund projection runs the spec's simulation -/

theorem qfloor_intCast (n : ℤ) : qfloor ((n : ℤ) : ℚ) = n := by
  simp [qfloor, Rat.num_intCast, Rat.den_intCast]

theorem roundHalfEven_intCast (n : ℤ) : roundHalfEven ((n : ℤ) : ℚ) = n := by
  simp only [roundHalfEven, qfloor_intCast, sub_self]
  norm_num

theorem round2_zero : round2 0 = 0 := by
  unfold round2
  rw [show ((0:ℚ) * 100) = (((0:ℤ)):ℚ) from by norm_num, roundHalfEven_intCast]
  norm_num

theorem round2_idem (q : ℚ) : round2 (round2 q) = round2 q := by
  unfold round2
  rw [div_mul_cancel₀ _ (by norm_num : (100:ℚ) ≠ 0), roundHalfEven_intCast]

theorem round4_intCast (n : ℤ) : round4 ((n : ℤ) : ℚ) = n := by
  unfold round4
  rw [show ((n : ℚ) * 10000) = (((n * 10000 : ℤ) : ℚ)) from by push_cast; ring,
    roundHalfEven_intCast]
  push_cast
  rw [mul_div_cancel_right₀ _ (by norm_num : (10000:ℚ) ≠ 0)]

theorem incomeStep_eq_spec (ad ap mc : ℚ) (lm : String) (off : ℕ) (st : IncomeState)
    (hp : 0 < ap) (hreinv : ∃ k : ℤ, st.reinvested_total = (k : ℚ)) :
    incomeStep ad ap mc lm off st = specIncomeStep ad ap mc lm off st ∧
    ∃ k : ℤ, (incomeStep ad ap mc lm off st).1.reinvested_total = (k : ℚ) := by
  obtain ⟨k, hk⟩ := hreinv
  have hap : ap ≠ 0 := ne_of_gt hp
  have hc0r : round2 (round2 (st.cash_remainder + round2 ((st.cotas + mc) * ad))) =
      round2 (st.cash_remainder + round2 ((st.cotas + mc) * ad)) := round2_idem _
  by_cases hp0 :
      qfloor (round2 (st.cash_remainder + round2 ((st.cotas + mc) * ad)) / ap) = 0
  · refine ⟨?_, ⟨k, ?_⟩⟩
    · simp only [incomeStep, specIncomeStep, if_pos hap, hp0]
      simp [hc0r]
    · simp only [incomeStep, if_pos hap, hp0]
      simpa using hk
  · have hround4 :
        round4 (st.reinvested_total +
          ((qfloor (round2 (st.cash_remainder + round2 ((st.cotas + mc) * ad)) / ap) : ℤ) : ℚ)) =
        st.reinvested_total +
          ((qfloor (round2 (st.cash_remainder + round2 ((st.cotas + mc) * ad)) / ap) : ℤ) : ℚ) := by
      rw [hk,
        show ((k : ℚ) +
            ((qfloor (round2 (st.cash_remainder + round2 ((st.cotas + mc) * ad)) / ap) : ℤ) : ℚ)) =
          (((k + qfloor (round2 (st.cash_remainder + round2 ((st.cotas + mc) * ad)) / ap) : ℤ)) : ℚ)
          from by push_cast; ring,
        round4_intCast]
    refine ⟨?_,
      ⟨k + qfloor (round2 (st.cash_remainder + round2 ((st.cotas + mc) * ad)) / ap), ?_⟩⟩
    · simp only [incomeStep, specIncomeStep, if_pos hap, if_pos hp0]
      rw [hround4]
    · simp only [incomeStep, if_pos hap, if_pos hp0]
      rw [hround4, hk]
      push_cast
      ring

theorem incomeLoop_eq_spec (ad ap mc : ℚ) (lm : String) (hp : 0 < ap) :
    ∀ (n offset : ℕ) (st : IncomeState),
      (∃ k : ℤ, st.reinvested_total = (k : ℚ)) →
      incomeLoop ad ap mc lm n offset st = specIncomeLoop ad ap mc lm n offset st
  | 0, _, _, _ => rfl
  | n + 1, offset, st, hr => by
      obtain ⟨heq, hr'⟩ := incomeStep_eq_spec ad ap mc lm offset st hp hr
      simp only [incomeLoop, specIncomeLoop, ← heq]
      rw [incomeLoop_eq_spec ad ap mc lm hp n (offset + 1) _ hr']

/-- C3: for a spec-conforming fund (nonnegative historical average price —
the spec's data model has nonnegative units and prices), `project_income`
produces exactly the spec's per-step simulation: per-step 2-decimal
rounding of income, cash and cumulative totals, whole-unit reinvestment at
`floor(cash / price)` with the price floored to `1.0` when the historical
average is `0`, fractional cash carried forward, and points mirroring the
loop state. -/
theorem project_income_spec (fiis : List FII) (t : String) (months : ℕ) (mc : ℚ)
    (w : Option ℤ) (now : String) (fii : FII) (h : find_fii fiis t = some fii)
    (hp : 0 ≤ fii.average_price) :
    project_income fiis t months mc w now =
      Except.ok (spec_income_points fii months mc w now) := by
  have hpe : effectiveAvgPrice fii = specEffectivePrice fii := by
    unfold effectiveAvgPrice specEffectivePrice
    rcases eq_or_lt_of_le hp with heq | hlt
    · rw [if_pos (le_of_eq heq.symm), if_pos heq.symm]
    · rw [if_neg (not_le.mpr hlt), if_neg (ne_of_gt hlt)]
  have hppos : 0 < specEffectivePrice fii := by
    unfold specEffectivePrice
    rcases eq_or_lt_of_le hp with heq | hlt
    · rw [if_pos heq.symm]; norm_num
    · rw [if_neg (ne_of_gt hlt)]; exact hlt
  simp only [project_income, spec_income_points, h]
  rw [hpe, incomeLoop_eq_spec _ _ _ _ hppos months 1 _ ⟨0, by norm_num⟩]

/-- C3 witness: the spec's end-to-end scenario — fund `ABCD11` with the
single record `{2024-01, 100 units at 10, dividend 0.5}`, one projected
month, no monthly additions, no window — yields the point with projected
income `50`, cumulative `50`, `5` reinvested units, `105` combined units
and combined income `52.5`. -/
theorem project_income_spec_witness :
    project_income [sampleFund] "ABCD11" 1 0 none "2024-01" =
      Except.ok [⟨"2024-02", 100, 50, 50, 5, 105, 105/2⟩] ∧
    spec_income_points sampleFund 1 0 none "2024-01" =
      [⟨"2024-02", 100, 50, 50, 5, 105, 105/2⟩] :=
  ⟨(project_income_spec [sampleFund] "ABCD11" 1 0 none "2024-01" sampleFund
      (by with_unfolding_all rfl) (by with_unfolding_all decide)).trans
    (by with_unfolding_all rfl),
    by with_unfolding_all rfl⟩

end FIIsTracker
